import Mathlib

/-!
# Verification of the permission-resolution and experiment-metadata core

A shallow embedding, in Lean 4, of the backend core of the `loginPage`
repository: the permission resolver (`fetchPermissions` in
`backend/helpers/permissionsHelper` / `backend/setupExperimentDb.ts`, and the
socket-era handler), the experiment-metadata controller (both observed
variants of `getExperimentMetadata`), the experiment-data fetch endpoint
(`getExperimentData`), and the recursive warehouse value normalizer
(`unwrapValues`).

The external BigQuery store is modelled as explicit data (a grant table, a map
from fully-qualified table names to rows, and a map from (dataset, table) to a
schema).  A store-level failure of the grants query is modelled by an optional
error on the store; the per-table experiment-discovery and metadata queries
fail exactly when the addressed table is absent from the store model.

JavaScript's `String.prototype.split('.')` and `includes('.')` are modelled by
`splitChar` / `containsDot` over the underlying character list of the string,
which agree with the JavaScript semantics on all inputs (in particular
`"".split('.') = [""]`).
-/

namespace LoginPage

/-! ## Strings: the model of JavaScript `split('.')` and `includes('.')` -/

/-- Split a character list at every occurrence of `c`.  Mirrors JavaScript
`String.prototype.split` with a single-character separator: the result is
never empty, and `[] ↦ [[]]` just as `"".split('.') = [""]`. -/
def splitChar (c : Char) : List Char → List (List Char)
  | [] => [[]]
  | x :: xs =>
    match splitChar c xs with
    | [] => [[]]
    | seg :: rest => if x = c then [] :: seg :: rest else (x :: seg) :: rest

/-- JavaScript `table_id.split('.')` on Lean strings. -/
def splitDots (s : String) : List String :=
  (splitChar '.' s.data).map String.mk

/-- JavaScript `table_id.includes('.')`. -/
def containsDot (s : String) : Bool :=
  s.data.contains '.'

/-! ## Data model

`Grant` is a row of `iucc-f4d.user_device_permission.permissions`;
`ExpRow` is a row of an experiment data table (the columns that the core
ever reads: the experiment name, the MAC address, the timestamp, and the
`SensorData_*` columns as an association list where `none` is SQL `NULL`).
-/

structure Grant where
  email : String
  owner : String
  mac_address : String
  experiment : String
  role : String
  /-- The BigQuery client returns `valid_until` as a wrapper object
  `{value: <iso string>}`; the field here is the inner string, `none` for
  SQL `NULL`. -/
  valid_until : Option String
  table_id : String
deriving Repr, DecidableEq

structure ExpRow where
  exp_name : String
  mac_address : String
  timestamp : String
  sensors : List (String × Option String)
deriving Repr, DecidableEq

structure ResolvedPermission where
  owner : String
  mac_address : String
  experiment_name : String
  valid_until : Option String
  project_id : String
  dataset_name : String
  table_id : String
  access_level : String
  is_admin : Bool
deriving Repr, DecidableEq

/-- The modelled BigQuery store.  `grantsError = some e` makes the grants
query fail (the client throws); a data-table query fails exactly when the
addressed table is not in `tables`. -/
structure BQStore where
  grants : List Grant
  grantsError : Option String
  tables : List ((String × String × String) × List ExpRow)
  schemas : List ((String × String) × List String)
deriving Repr

/-- Result of `SELECT * FROM proj.ds.tbl`: the rows when the table exists,
`none` (a thrown `QueryError`) otherwise. -/
def lookupTable (store : BQStore) (proj ds tbl : String) : Option (List ExpRow) :=
  (store.tables.find? (fun e => e.1 == (proj, ds, tbl))).map (·.2)

/-- Result of `bigQueryClient.dataset(ds).table(tbl).getMetadata()`:
the column names of the schema, `none` when the fetch fails. -/
def lookupSchema (store : BQStore) (ds tbl : String) : Option (List String) :=
  (store.schemas.find? (fun e => e.1 == (ds, tbl))).map (·.2)

/-- The query `SELECT DISTINCT ExperimentData_Exp_name FROM t`: the distinct
experiment names occurring in the rows of `t`. -/
def distinctExpNames (rows : List ExpRow) : List String :=
  (rows.map (·.exp_name)).dedup

/-! ## Permission Resolver (`fetchPermissions`) -/

/-- Parsing of `table_id` into `(projectId, datasetId, tableId)`
(`setupExperimentDb.ts`, lines 73–76):
`segments[0]`, `segments.length >= 2 ? segments[1] : "Unknown dataset"`,
`segments.length >= 3 ? segments[2] : ""`. -/
def parseTableId (table_id : String) : String × String × String :=
  let segments := splitDots table_id
  (segments.headD "",
   if segments.length ≥ 2 then segments.getD 1 "" else "Unknown dataset",
   if segments.length ≥ 3 then segments.getD 2 "" else "")

/-- The per-grant body of the `for (const permission of rows)` loop of
`fetchPermissions`: builds `basePermission` and emits either the admin
expansion (one entry per distinct experiment in the scoped table), the
admin fallback (one entry, when the experiment-discovery query throws),
or the single read entry. -/
def processGrant (store : BQStore) (g : Grant) : List ResolvedPermission :=
  let ids := parseTableId g.table_id
  let projectId := ids.1
  let datasetId := ids.2.1
  let tableId := ids.2.2
  -- `validUntil = permission.valid_until ? permission.valid_until.value : null`
  let validUntil := g.valid_until
  let base : ResolvedPermission :=
    { owner := g.owner
      mac_address := g.mac_address
      experiment_name := g.experiment
      valid_until := validUntil
      project_id := projectId
      dataset_name := datasetId
      table_id := g.table_id
      access_level := if g.role == "admin" then "admin" else "read"
      is_admin := false }
  if g.role == "admin" then
    match lookupTable store projectId datasetId tableId with
    | some rows =>
      (distinctExpNames rows).map (fun e =>
        { base with experiment_name := e, is_admin := true })
    | none =>
      [{ base with is_admin := true }]
  else
    [base]

/-- The formatting loop of `fetchPermissions` applied to the rows the grants
query returned (the early `rows.length === 0` return included). -/
def formatPermissions (store : BQStore) (rows : List Grant) : List ResolvedPermission :=
  if rows.length == 0 then [] else rows.flatMap (processGrant store)

/-- The resolver `fetchPermissions(email)`: queries the grant rows for `email` and formats
them; a store-level failure of the grants query is not caught here and
propagates to the caller as an exception. -/
def fetchPermissions (store : BQStore) (email : String) :
    Except String (List ResolvedPermission) :=
  match store.grantsError with
  | some e => .error e
  | none => .ok (formatPermissions store
      (store.grants.filter (fun g => g.email == email)))

/-- The socket handler `handleGetPermissions` (`permissionsHandler.ts`): runs
the same resolution logic inside a `try`, and emits `[]` on any error
(lines 129–132).  (The socket-era entries additionally carry the raw `role`
field, which no claim mentions; it is omitted from `ResolvedPermission`.) -/
def handleGetPermissions (store : BQStore) (email : String) : List ResolvedPermission :=
  match fetchPermissions store email with
  | .ok perms => perms
  | .error _ => []

/-- Responses of `POST /api/permissions` (`permissionsRoutes.ts`). -/
inductive PermResponse where
  | ok (permissions : List ResolvedPermission)
  | badRequest (message : String)
  | serverError (message : String)
deriving Repr, DecidableEq

/-- The HTTP route `POST /api/permissions`: 400 when `email` is missing,
otherwise `fetchPermissions`, with a `catch` that answers
500 `Internal server error` (lines 19–27 of `permissionsRoutes.ts`). -/
def postPermissions (store : BQStore) (email : Option String) : PermResponse :=
  match email with
  | none => .badRequest "Email is required"
  | some email =>
    match fetchPermissions store email with
    | .ok permissions => .ok permissions
    | .error _ => .serverError "Internal server error"

/-! ## Metadata Resolver (`getExperimentMetadata`, both observed variants) -/

/-- JavaScript truthiness of a possibly-absent string field: absent,
`null`, and `""` are falsy. -/
def truthy : Option String → Bool
  | none => false
  | some s => s != ""

/-- An experiment descriptor as destructured from the request body; each
field may be absent. -/
structure ExperimentDescriptor where
  project_id : Option String
  dataset_name : Option String
  table_id : Option String
  experiment_name : Option String
  mac_address : Option String
deriving Repr, DecidableEq

/-- The check `project_id && dataset_name && table_id && experiment_name`. -/
def descriptorValid (d : ExperimentDescriptor) : Bool :=
  truthy d.project_id && truthy d.dataset_name &&
  truthy d.table_id && truthy d.experiment_name

structure TimeRange where
  first_timestamp : Option String
  last_timestamp : Option String
deriving Repr, DecidableEq

structure ExperimentMetadata where
  table_id : String
  experiment_name : String
  mac_address : Option String
  time_range : TimeRange
  available_sensors : List String
deriving Repr, DecidableEq

/-- Aggregate `MIN(TimeStamp)` over a set of rows: `NULL` on the empty set. -/
def minTimestamp (rows : List ExpRow) : Option String :=
  rows.foldl (fun acc r =>
    match acc with
    | none => some r.timestamp
    | some t => some (if r.timestamp < t then r.timestamp else t)) none

/-- Aggregate `MAX(TimeStamp)` over a set of rows: `NULL` on the empty set. -/
def maxTimestamp (rows : List ExpRow) : Option String :=
  rows.foldl (fun acc r =>
    match acc with
    | none => some r.timestamp
    | some t => some (if t < r.timestamp then r.timestamp else t)) none

/-- The rows of the addressed table that the metadata queries scope to:
`WHERE ExperimentData_Exp_name = @experiment_name` and, when `mac_address`
is truthy, `AND ExperimentData_MAC_address = @mac_address`. -/
def scopedRows (d : ExperimentDescriptor) (tableRows : List ExpRow) : List ExpRow :=
  tableRows.filter (fun r =>
    r.exp_name == d.experiment_name.getD "" &&
    (!(truthy d.mac_address) || r.mac_address == d.mac_address.getD ""))

/-- The value of a row at a `SensorData_*` column: `NULL` both when the
column holds `NULL` and when the model row does not carry the column. -/
def sensorValue (r : ExpRow) (col : String) : Option String :=
  match r.sensors.find? (fun kv => kv.1 == col) with
  | some kv => kv.2
  | none => none

/-- JavaScript `s.startsWith(p)`, on the underlying character lists (the
kernel-computable model of `String.startsWith`). -/
def strStartsWith (s p : String) : Bool :=
  p.data.isPrefixOf s.data

/-- The key filter of the sampling strategy (variant 1, lines 67–74):
`key.startsWith('SensorData_')` minus the three label columns. -/
def isSensorKey (k : String) : Bool :=
  strStartsWith k "SensorData_" &&
  k != "SensorData_Name" && k != "SensorData_Labels" && k != "SensorData_LabelOptions"

/-- The fixed column list of the `UNPIVOT` fallback query of variant 1
(lines 96–123 of `experimentMetadataController.ts`). -/
def sensorColumnsList : List String :=
  ["SensorData_temperature", "SensorData_humidity", "SensorData_light",
   "SensorData_barometric_pressure", "SensorData_barometric_temp",
   "SensorData_battery", "SensorData_rssi", "SensorData_tmp107_amb",
   "SensorData_tmp107_obj", "SensorData_bmp_390_u18_pressure",
   "SensorData_bmp_390_u18_temperature", "SensorData_bmp_390_u19_pressure",
   "SensorData_bmp_390_u19_temperature", "SensorData_hdc_2010_u13_temperature",
   "SensorData_hdc_2010_u13_humidity", "SensorData_hdc_2010_u16_temperature",
   "SensorData_hdc_2010_u16_humidity", "SensorData_hdc_2010_u17_temperature",
   "SensorData_hdc_2010_u17_humidity", "SensorData_opt_3001_u1_light_intensity",
   "SensorData_opt_3001_u2_light_intensity", "SensorData_opt_3001_u3_light_intensity",
   "SensorData_opt_3001_u4_light_intensity", "SensorData_opt_3001_u5_light_intensity",
   "SensorData_batmon_temperature", "SensorData_batmon_battery_voltage",
   "SensorData_co2_ppm", "SensorData_air_velocity"]

/-- The `UNPIVOT` fallback of variant 1: the columns of the fixed list
having at least one non-`NULL` value among (at most 1000 of) the scoped
rows, grouped by column name.  (The row order of the `GROUP BY` result is
unspecified by SQL; the model returns the columns in the order of the fixed
list.) -/
def fallbackSensors (rows : List ExpRow) : List String :=
  sensorColumnsList.filter (fun c =>
    (rows.take 1000).any (fun r => (sensorValue r c).isSome))

/-- The sampling step of variant 1 (lines 48–75): fetch one scoped row
(`LIMIT 1`) and keep its non-`NULL` sensor keys. -/
def sampledSensors (rows : List ExpRow) : List String :=
  match rows.take 1 with
  | row :: _ =>
    (row.sensors.filter (fun kv => isSensorKey kv.1 && kv.2.isSome)).map (·.1)
  | [] => []

/-- Lines 77–142 of variant 1: the sampled sensors, or the `UNPIVOT`
fallback when the sample yields none. -/
def availableSensorsV1 (rows : List ExpRow) : List String :=
  let sampled := sampledSensors rows
  if sampled.length == 0 then fallbackSensors rows else sampled

/-- Per-descriptor body of variant 1 of `getExperimentMetadata`
(`experimentMetadataController.ts` lines 24–154): time-range aggregate,
`LIMIT 1` sample, key filter over the sample, `UNPIVOT` fallback when the
sample yields no sensors, then the assembled record.  A query against an
absent table throws — the error is not caught inside the loop and aborts
the whole batch.  (The inner `catch` of the fallback query cannot fire in
the model: once the table exists, the fallback query succeeds.) -/
def resolveV1 (store : BQStore) (d : ExperimentDescriptor) :
    Except String ExperimentMetadata :=
  let pid := d.project_id.getD ""
  let ds := d.dataset_name.getD ""
  let tbl := d.table_id.getD ""
  match lookupTable store pid ds tbl with
  | none => .error ("Not found: Table " ++ pid ++ "." ++ ds ++ "." ++ tbl)
  | some tableRows =>
    let inScope := scopedRows d tableRows
    .ok { table_id := tbl
          experiment_name := d.experiment_name.getD ""
          mac_address := if truthy d.mac_address then d.mac_address else none
          time_range :=
            { first_timestamp := minTimestamp inScope
              last_timestamp := maxTimestamp inScope }
          available_sensors := availableSensorsV1 inScope }

/-- Responses of `POST /api/experiments/metadata`. -/
inductive MetaResponse where
  | ok (metadata : List ExperimentMetadata)
  | badRequest (message : String) (invalidExperiments : List ExperimentDescriptor)
  | serverError (message : String)
deriving Repr, DecidableEq

/-- The descriptor loop of variant 1: invalid descriptors are skipped with
`continue` (lines 19–22); the first query error aborts the batch. -/
def processV1 (store : BQStore) : List ExperimentDescriptor →
    Except String (List ExperimentMetadata)
  | [] => .ok []
  | d :: rest =>
    if descriptorValid d then
      match resolveV1 store d with
      | .error e => .error e
      | .ok m =>
        match processV1 store rest with
        | .error e => .error e
        | .ok ms => .ok (m :: ms)
    else
      processV1 store rest

/-- Variant 1 of `getExperimentMetadata` (the sampling variant,
lines 4–169): skips malformed descriptors, answers 200 with the collected
metadata, or 500 when a query inside the loop throws. -/
def getExperimentMetadataV1 (store : BQStore)
    (experiments : List ExperimentDescriptor) : MetaResponse :=
  match processV1 store experiments with
  | .ok metadataResults => .ok metadataResults
  | .error e => .serverError e

/-- Per-descriptor body of variant 2 of `getExperimentMetadata`
(lines 216–300): schema fetch, `COUNTIF`-based sensor check over the schema's
`SensorData_*` columns, time-range aggregate; any failure is re-thrown and
rejects the whole `Promise.all`. -/
def resolveV2 (store : BQStore) (d : ExperimentDescriptor) :
    Except String ExperimentMetadata :=
  let pid := d.project_id.getD ""
  let ds := d.dataset_name.getD ""
  let tbl := d.table_id.getD ""
  let expName := d.experiment_name.getD ""
  match lookupSchema store ds tbl with
  | none => .error ("Failed to fetch schema for table " ++ tbl)
  | some schemaFields =>
    let sensorColumns := schemaFields.filter (fun f => strStartsWith f "SensorData_")
    match lookupTable store pid ds tbl with
    | none => .error ("Failed to fetch available sensors for " ++ expName)
    | some tableRows =>
      let inScope := scopedRows d tableRows
      let availableSensors := sensorColumns.filter (fun c =>
        inScope.any (fun r => (sensorValue r c).isSome))
      .ok { table_id := tbl
            experiment_name := expName
            mac_address := if truthy d.mac_address then d.mac_address else none
            time_range :=
              { first_timestamp := minTimestamp inScope
                last_timestamp := maxTimestamp inScope }
            available_sensors := availableSensors }

/-- Variant 2 of `getExperimentMetadata` (the batch-validating variant,
lines 175–316): the whole batch is validated before any store access; when
some descriptor misses a required field, the response is
400 `Some experiments are missing required fields` carrying exactly the
offending descriptors, and the store is never touched. -/
def getExperimentMetadataV2 (store : BQStore)
    (experiments : List ExperimentDescriptor) : MetaResponse :=
  let invalidExperiments := experiments.filter (fun e => !(descriptorValid e))
  if invalidExperiments.length > 0 then
    .badRequest "Some experiments are missing required fields" invalidExperiments
  else
    match experiments.mapM (resolveV2 store) with
    | .ok metadataResults => .ok metadataResults
    | .error e => .serverError e

/-! ## Data-fetch endpoint (`getExperimentData`) and the generated SQL

The three query shapes the core issues, modelled as the pair
(SQL text, named-parameter bindings) exactly as the source assembles the
`{ query, params }` options objects (template-literal whitespace collapsed
to single spaces). -/

/-- The request body of `POST /api/experiments/data`, as destructured by
`getExperimentData` (all values already plain strings; the `{value: …}`
unwrap of `start`/`end` is upstream of the query construction). -/
structure DataRequest where
  project_id : String
  dataset_name : String
  table_id : String
  experiment_name : String
  startTime : String
  endTime : String
  fields : List String
deriving Repr, DecidableEq

/-- From `getExperimentData`, lines 127–132: when `table_id` contains a dot,
only the substring after the last dot addresses the store. -/
def actualTableIdOf (table_id : String) : String :=
  if containsDot table_id then (splitDots table_id).getLastD ""
  else table_id

/-- The grants query of `fetchPermissions`: constant SQL text, the email
only in the bindings. -/
def permissionsQuery (email : String) : String × List (String × String) :=
  ("SELECT email, owner, mac_address, experiment, role, valid_from, valid_until, created_at, table_id FROM `iucc-f4d.user_device_permission.permissions` WHERE email = @email",
   [("email", email)])

/-- The admin-expansion query of `fetchPermissions`: the three identifiers
are interpolated from the parsed grant row; there are no value bindings. -/
def adminQuery (projectId datasetId tableId : String) :
    String × List (String × String) :=
  ("SELECT DISTINCT ExperimentData_Exp_name FROM `" ++ projectId ++ "." ++
     datasetId ++ "." ++ tableId ++ "`",
   [])

/-- The projection query of `getExperimentData` (part_008, lines 135–149):
identifiers and the field list are interpolated from the request body;
`experiment_name`, `start` and `end` are bound. -/
def dataQuery (r : DataRequest) : String × List (String × String) :=
  let actualTableId := actualTableIdOf r.table_id
  ("SELECT TimeStamp, " ++ String.intercalate ", " r.fields ++ " FROM `" ++
     r.project_id ++ "." ++ r.dataset_name ++ "." ++ actualTableId ++
     "` WHERE ExperimentData_Exp_name = @experiment_name AND TimeStamp BETWEEN @start AND @end",
   [("experiment_name", r.experiment_name), ("start", r.startTime),
    ("end", r.endTime)])

/-! ## Value Normalizer (`unwrapValues`, part_008 lines 66–85) -/

/-- Dynamic JSON-like values as returned by the store client. -/
inductive JVal where
  | str (s : String)
  | num (n : Int)
  | bool (b : Bool)
  | null
  | arr (xs : List JVal)
  | obj (fields : List (String × JVal))
deriving Repr

/-- The test `keys.length === 1 && keys[0] === 'value'`. -/
def isValueWrapper : List (String × JVal) → Bool
  | [kv] => kv.1 == "value"
  | _ => false

/-- Field `obj.value` of a single-key object (`.null` outside that case, where
the source never reads it). -/
def wrapperPayload : List (String × JVal) → JVal
  | [kv] => kv.2
  | _ => .null

mutual

/-- The normalizer `unwrapValues`: arrays are mapped, an object whose only key is `value`
is replaced by that key's value — returned directly, not recursed into —
and any other object is rebuilt with every field unwrapped; primitives are
returned unchanged. -/
def unwrapValues : JVal → JVal
  | .str s => .str s
  | .num n => .num n
  | .bool b => .bool b
  | .null => .null
  | .arr xs => .arr (unwrapList xs)
  | .obj fields =>
    if isValueWrapper fields then wrapperPayload fields
    else .obj (unwrapFields fields)

/-- Mapping `obj.map(unwrapValues)` on arrays. -/
def unwrapList : List JVal → List JVal
  | [] => []
  | x :: xs => unwrapValues x :: unwrapList xs

/-- The `for (const key in obj)` rebuild on non-wrapper objects. -/
def unwrapFields : List (String × JVal) → List (String × JVal)
  | [] => []
  | kv :: rest => (kv.1, unwrapValues kv.2) :: unwrapFields rest

end

/-- A primitive (non-object, non-array) value. -/
def isAtom : JVal → Bool
  | .str _ => true
  | .num _ => true
  | .bool _ => true
  | .null => true
  | .arr _ => false
  | .obj _ => false

mutual

/-- Every `{value: v}` wrapper occurring in the value has a primitive
payload — the shape the warehouse client actually produces for
timestamp-typed columns. -/
def wrapperPayloadsAtomic : JVal → Bool
  | .str _ => true
  | .num _ => true
  | .bool _ => true
  | .null => true
  | .arr xs => wpaList xs
  | .obj fields =>
    if isValueWrapper fields then isAtom (wrapperPayload fields)
    else wpaFields fields

def wpaList : List JVal → Bool
  | [] => true
  | x :: xs => wrapperPayloadsAtomic x && wpaList xs

def wpaFields : List (String × JVal) → Bool
  | [] => true
  | kv :: rest => wrapperPayloadsAtomic kv.2 && wpaFields rest

end

mutual

/-- No `{value: v}` wrapper occurs anywhere in the value. -/
def wrapperFree : JVal → Bool
  | .str _ => true
  | .num _ => true
  | .bool _ => true
  | .null => true
  | .arr xs => wfList xs
  | .obj fields => !(isValueWrapper fields) && wfFields fields

def wfList : List JVal → Bool
  | [] => true
  | x :: xs => wrapperFree x && wfList xs

def wfFields : List (String × JVal) → Bool
  | [] => true
  | kv :: rest => wrapperFree kv.2 && wfFields rest

end

/-! ## Concrete fixtures used by the witnesses and counterexamples -/

def gAdmin : Grant :=
  { email := "r1@example.com", owner := "owner1", mac_address := "AA:BB",
    experiment := "legacy", role := "admin",
    valid_until := some "2026-01-01T00:00:00Z", table_id := "proj.ds.tbl" }

def gRead : Grant :=
  { email := "r1@example.com", owner := "owner1", mac_address := "AA:BB",
    experiment := "exp_a", role := "read",
    valid_until := none, table_id := "proj.ds.tbl" }

def rowA1 : ExpRow :=
  { exp_name := "exp_a", mac_address := "AA:BB",
    timestamp := "2024-01-01T00:00:00Z",
    sensors := [("SensorData_temperature", some "21.5")] }

def rowB : ExpRow :=
  { exp_name := "exp_b", mac_address := "AA:BB",
    timestamp := "2024-01-02T00:00:00Z", sensors := [] }

def rowA2 : ExpRow :=
  { exp_name := "exp_a", mac_address := "CC:DD",
    timestamp := "2024-01-05T00:00:00Z",
    sensors := [("SensorData_temperature", none)] }

def tblRows : List ExpRow := [rowA1, rowB, rowA2]

def storeW : BQStore :=
  { grants := [gAdmin, gRead], grantsError := none,
    tables := [(("proj", "ds", "tbl"), tblRows)],
    schemas := [(("ds", "tbl"),
      ["TimeStamp", "ExperimentData_Exp_name", "SensorData_temperature"])] }

/-- A store whose grants query throws. -/
def storeFail : BQStore :=
  { grants := [], grantsError := some "connection refused",
    tables := [], schemas := [] }

/-- A read grant whose `table_id` has a single segment. -/
def gMalformed : Grant :=
  { email := "r2@example.com", owner := "owner2", mac_address := "EE:FF",
    experiment := "exp_c", role := "read", valid_until := none,
    table_id := "justatable" }

/-- The malformed descriptor `D1` of the spec scenario: `table_id` missing. -/
def descD1 : ExperimentDescriptor :=
  { project_id := some "proj", dataset_name := some "ds", table_id := none,
    experiment_name := some "exp_a", mac_address := none }

/-- The well-formed descriptor `D2` of the spec scenario. -/
def descD2 : ExperimentDescriptor :=
  { project_id := some "proj", dataset_name := some "ds",
    table_id := some "tbl", experiment_name := some "exp_a",
    mac_address := none }

/-- A descriptor scoping to an experiment with no rows at all. -/
def descZ : ExperimentDescriptor :=
  { project_id := some "proj", dataset_name := some "ds",
    table_id := some "tbl", experiment_name := some "exp_zz",
    mac_address := none }

/-- A concrete data request carrying a fully-qualified dotted `table_id`. -/
def reqDotted : DataRequest :=
  { project_id := "iucc-f4d", dataset_name := "ds",
    table_id := "iucc-f4d.ds.tbl", experiment_name := "exp_a",
    startTime := "2024-01-01T00:00:00Z", endTime := "2024-01-05T00:00:00Z",
    fields := ["SensorData_temperature"] }

/-- The dotted request with a different request-body `project_id`. -/
def reqOtherProject : DataRequest :=
  { reqDotted with project_id := "request-supplied-project" }

/-- The dotted request with different value parameters (experiment name and
time range) but the same identifiers. -/
def reqOtherValues : DataRequest :=
  { reqDotted with
    experiment_name := "exp_b"
    startTime := "2030-01-01T00:00:00Z"
    endTime := "2030-12-31T00:00:00Z" }

/-! ## C1: admin expansion -/

/-- C1: for every grant with `role = admin` whose scoped table exists and
contains the distinct experiment names `distinctExpNames rows`,
`fetchPermissions` emits (through its per-grant loop body `processGrant`)
exactly one `ResolvedPermission` per distinct experiment name, each with
`is_admin = true`, all sharing `owner`, `valid_until` and `table_id` of the
source grant, with pairwise-distinct `experiment_name` values. -/
theorem admin_grant_expansion (store : BQStore) (g : Grant) (rows : List ExpRow)
    (hrole : g.role = "admin")
    (hlk : lookupTable store (parseTableId g.table_id).1
      (parseTableId g.table_id).2.1 (parseTableId g.table_id).2.2 = some rows) :
    (processGrant store g).length = (distinctExpNames rows).length ∧
    (processGrant store g).map (·.experiment_name) = distinctExpNames rows ∧
    ((processGrant store g).map (·.experiment_name)).Nodup ∧
    ∀ p ∈ processGrant store g, p.is_admin = true ∧ p.owner = g.owner ∧
      p.valid_until = g.valid_until ∧ p.table_id = g.table_id := by
  have hb : (g.role == "admin") = true := by rw [hrole]; rfl
  have hmap : (processGrant store g).map (·.experiment_name) = distinctExpNames rows := by
    simp only [processGrant, hb, if_true, hlk, List.map_map]
    exact List.map_id _
  refine ⟨?_, hmap, ?_, ?_⟩
  · simp [processGrant, hb, hlk]
  · rw [hmap]
    exact List.nodup_dedup _
  · intro p hp
    simp only [processGrant, hb, if_true, hlk] at hp
    simp only [List.mem_map] at hp
    obtain ⟨e, _, rfl⟩ := hp
    exact ⟨rfl, rfl, rfl, rfl⟩

/-- Witness for C1: the admin grant over `proj.ds.tbl` (three rows, the two
distinct experiments `exp_a`, `exp_b`) expands to exactly two entries. -/
theorem admin_grant_expansion_witness :
    gAdmin.role = "admin" ∧
    lookupTable storeW (parseTableId gAdmin.table_id).1
      (parseTableId gAdmin.table_id).2.1 (parseTableId gAdmin.table_id).2.2 =
      some tblRows ∧
    ((processGrant storeW gAdmin).length = (distinctExpNames tblRows).length ∧
     (processGrant storeW gAdmin).map (·.experiment_name) = distinctExpNames tblRows ∧
     ((processGrant storeW gAdmin).map (·.experiment_name)).Nodup ∧
     ∀ p ∈ processGrant storeW gAdmin, p.is_admin = true ∧ p.owner = gAdmin.owner ∧
       p.valid_until = gAdmin.valid_until ∧ p.table_id = gAdmin.table_id) :=
  ⟨rfl, by decide, admin_grant_expansion storeW gAdmin tblRows rfl (by decide)⟩

/-! ## C2: read grants -/

/-- C2: for every grant with `role = read`, the resolver emits exactly one
`ResolvedPermission`, with `is_admin = false` and `experiment_name` equal to
the grant's `experiment` field. -/
theorem read_grant_single_emission (store : BQStore) (g : Grant)
    (hrole : g.role = "read") :
    (processGrant store g).length = 1 ∧
    ∀ p ∈ processGrant store g, p.is_admin = false ∧
      p.experiment_name = g.experiment ∧ p.access_level = "read" := by
  have hb : (g.role == "admin") = false := by rw [hrole]; rfl
  simp only [processGrant, hb, Bool.false_eq_true, if_false]
  exact ⟨rfl, fun p hp => by
    simp only [List.mem_singleton] at hp
    subst hp
    exact ⟨rfl, rfl, rfl⟩⟩

/-- Witness for C2 at the concrete read grant. -/
theorem read_grant_single_emission_witness :
    gRead.role = "read" ∧
    ((processGrant storeW gRead).length = 1 ∧
     ∀ p ∈ processGrant storeW gRead, p.is_admin = false ∧
       p.experiment_name = gRead.experiment ∧ p.access_level = "read") :=
  ⟨rfl, read_grant_single_emission storeW gRead rfl⟩

/-! ## C9: the `access_level` / `is_admin` invariant -/

/-- Every permission a single grant contributes satisfies the invariant. -/
theorem processGrant_access_level_invariant (store : BQStore) (g : Grant) :
    ∀ p ∈ processGrant store g,
      (p.access_level = "admin" ↔ p.is_admin = true) ∧
      (p.access_level = "admin" ∨ p.access_level = "read") := by
  intro p hp
  by_cases hb : (g.role == "admin") = true
  · simp only [processGrant, hb, if_true] at hp
    cases hlk : lookupTable store (parseTableId g.table_id).1
        (parseTableId g.table_id).2.1 (parseTableId g.table_id).2.2 with
    | some rows =>
      rw [hlk] at hp
      simp only [List.mem_map] at hp
      obtain ⟨e, _, rfl⟩ := hp
      simp [hb]
    | none =>
      rw [hlk] at hp
      simp only [List.mem_singleton] at hp
      subst hp
      simp [hb]
  · simp only [processGrant, hb, Bool.false_eq_true, if_false,
      List.mem_singleton] at hp
    subst hp
    have hb' : (g.role == "admin") = false := by
      cases h : g.role == "admin" with
      | true => exact absurd h hb
      | false => rfl
    simp [hb']

/-- C9: every entry of a successful `fetchPermissions` response satisfies
`access_level = "admin" ↔ is_admin = true`, and `access_level` is `"admin"`
or `"read"`, across the read branch, the admin expansion, and the admin
fallback. -/
theorem fetchPermissions_access_level_invariant (store : BQStore) (email : String)
    (perms : List ResolvedPermission)
    (h : fetchPermissions store email = .ok perms) :
    ∀ p ∈ perms, (p.access_level = "admin" ↔ p.is_admin = true) ∧
      (p.access_level = "admin" ∨ p.access_level = "read") := by
  intro p hp
  unfold fetchPermissions at h
  cases herr : store.grantsError with
  | some e => rw [herr] at h; exact absurd h (by simp)
  | none =>
    rw [herr] at h
    simp only [Except.ok.injEq] at h
    subst h
    unfold formatPermissions at hp
    by_cases hz : ((store.grants.filter (fun g => g.email == email)).length == 0) = true
    · rw [if_pos hz] at hp
      exact absurd hp (List.not_mem_nil p)
    · rw [if_neg hz] at hp
      simp only [List.mem_flatMap] at hp
      obtain ⟨g, _, hpg⟩ := hp
      exact processGrant_access_level_invariant store g p hpg

/-- Witness for C9 on the concrete store (one admin grant expanded into two
entries, one read grant). -/
theorem fetchPermissions_access_level_invariant_witness :
    fetchPermissions storeW "r1@example.com" =
      .ok (formatPermissions storeW [gAdmin, gRead]) ∧
    ∀ p ∈ formatPermissions storeW [gAdmin, gRead],
      (p.access_level = "admin" ↔ p.is_admin = true) ∧
      (p.access_level = "admin" ∨ p.access_level = "read") :=
  ⟨rfl, fetchPermissions_access_level_invariant storeW "r1@example.com"
    (formatPermissions storeW [gAdmin, gRead]) rfl⟩

/-! ## C8: malformed `table_id` placeholders -/

/-- Counterexample for C8 as stated: for a grant whose `table_id` has fewer
than 3 segments, the resolver emits the permission with dataset placeholder
`"Unknown dataset"`, and the strings `"unknown_dataset"` / `"unknown_table"`
claimed by the spec appear nowhere in the emitted entry: the table fallback
is the empty string. -/
theorem placeholder_strings_counterexample :
    (processGrant storeW gMalformed).map (·.dataset_name) = ["Unknown dataset"] ∧
    (parseTableId gMalformed.table_id).2.2 = "" ∧
    ("Unknown dataset" : String) ≠ "unknown_dataset" ∧
    (parseTableId gMalformed.table_id).2.2 ≠ "unknown_table" := by decide

/-- The loop over grants concatenates each grant's own entries: one grant's
outcome never affects another's. -/
theorem formatPermissions_eq_flatMap (store : BQStore) (rows : List Grant) :
    formatPermissions store rows = rows.flatMap (processGrant store) := by
  cases rows with
  | nil => rfl
  | cons g gs => rfl

/-- C8 amended: for every grant whose `table_id` splits into fewer than 3
segments, the resolver substitutes `"Unknown dataset"` for a missing dataset
segment and the empty string for a missing table segment (not
`"unknown_dataset"` / `"unknown_table"`), still emits exactly one permission
for that grant (for an admin grant: provided the discovery query on the
malformed reference fails, as it does against the real store), and the
processing of all other grants in the batch is unaffected. -/
theorem malformed_tableid_placeholders (store : BQStore) (g : Grant)
    (h3 : (splitDots g.table_id).length < 3)
    (hadm : g.role = "admin" → lookupTable store (parseTableId g.table_id).1
      (parseTableId g.table_id).2.1 (parseTableId g.table_id).2.2 = none) :
    ((splitDots g.table_id).length < 2 →
      (parseTableId g.table_id).2.1 = "Unknown dataset") ∧
    (parseTableId g.table_id).2.2 = "" ∧
    (processGrant store g).length = 1 ∧
    ∀ rows : List Grant, formatPermissions store rows =
      rows.flatMap (processGrant store) := by
  refine ⟨?_, ?_, ?_, formatPermissions_eq_flatMap store⟩
  · intro h2
    simp only [parseTableId]
    rw [if_neg (by omega)]
  · simp only [parseTableId]
    rw [if_neg (by omega)]
  · by_cases hb : (g.role == "admin") = true
    · have hrole : g.role = "admin" := by
        have := hb
        simpa using this
      simp only [processGrant, hb, if_true, hadm hrole, List.length_singleton]
    · simp only [processGrant, hb, Bool.false_eq_true, if_false,
        List.length_singleton]

/-- Witness for C8 amended at the one-segment read grant. -/
theorem malformed_tableid_placeholders_witness :
    (splitDots gMalformed.table_id).length < 3 ∧
    (((splitDots gMalformed.table_id).length < 2 →
       (parseTableId gMalformed.table_id).2.1 = "Unknown dataset") ∧
     (parseTableId gMalformed.table_id).2.2 = "" ∧
     (processGrant storeW gMalformed).length = 1 ∧
     ∀ rows : List Grant, formatPermissions storeW rows =
       rows.flatMap (processGrant storeW)) :=
  ⟨by decide, malformed_tableid_placeholders storeW gMalformed (by decide)
    (fun h => absurd h (by decide))⟩

/-! ## C3: store-failure semantics of permission resolution -/

/-- Counterexample for C3 as stated: on a store whose grants query throws,
the HTTP route `POST /api/permissions` answers 500 `Internal server error` —
a fatal error propagated to the caller, not an empty permissions list. -/
theorem store_error_http_counterexample :
    postPermissions storeFail (some "r1@example.com") =
      .serverError "Internal server error" ∧
    postPermissions storeFail (some "r1@example.com") ≠ PermResponse.ok [] := by
  decide

/-- C3 amended: on a store-level failure of the grants query, the socket
handler degrades to an empty permissions response, while the HTTP route
propagates a 500 `Internal server error`; an email with zero grant rows
yields an empty list (HTTP 200, no error) on both paths. -/
theorem store_failure_semantics (store : BQStore) (email e : String)
    (herr : store.grantsError = some e) :
    handleGetPermissions store email = [] ∧
    postPermissions store (some email) = .serverError "Internal server error" ∧
    ∀ store2 : BQStore, store2.grantsError = none →
      store2.grants.filter (fun g => g.email == email) = [] →
      fetchPermissions store2 email = .ok [] ∧
      postPermissions store2 (some email) = .ok [] ∧
      handleGetPermissions store2 email = [] := by
  refine ⟨?_, ?_, ?_⟩
  · simp [handleGetPermissions, fetchPermissions, herr]
  · simp [postPermissions, fetchPermissions, herr]
  · intro store2 h0 hfil
    have hfp : fetchPermissions store2 email = .ok [] := by
      simp [fetchPermissions, h0, hfil, formatPermissions]
    exact ⟨hfp, by simp [postPermissions, hfp], by simp [handleGetPermissions, hfp]⟩

/-- Witness for C3 amended: the failing store, and a store with no grants
for `"nonexistent@example.com"`. -/
theorem store_failure_semantics_witness :
    storeFail.grantsError = some "connection refused" ∧
    (handleGetPermissions storeFail "nonexistent@example.com" = [] ∧
     postPermissions storeFail (some "nonexistent@example.com") =
       .serverError "Internal server error" ∧
     ∀ store2 : BQStore, store2.grantsError = none →
       store2.grants.filter (fun g => g.email == "nonexistent@example.com") = [] →
       fetchPermissions store2 "nonexistent@example.com" = .ok [] ∧
       postPermissions store2 (some "nonexistent@example.com") = .ok [] ∧
       handleGetPermissions store2 "nonexistent@example.com" = []) :=
  ⟨rfl, store_failure_semantics storeFail "nonexistent@example.com"
    "connection refused" rfl⟩

/-! ## C4: batch validation in the metadata resolver (variant 2) -/

/-- C4: whenever some descriptor of the batch is missing a required
addressing field, the whole batch is rejected with the 400 validation error
listing exactly the offending descriptors, and the response is computed
without any access to the store — it is identical for every store, so no
store query is executed for any descriptor of the batch, the well-formed
ones included. -/
theorem invalid_descriptor_batch_rejection (store : BQStore)
    (experiments : List ExperimentDescriptor) (d : ExperimentDescriptor)
    (hd : d ∈ experiments) (hinv : descriptorValid d = false) :
    getExperimentMetadataV2 store experiments =
      .badRequest "Some experiments are missing required fields"
        (experiments.filter (fun e => !(descriptorValid e))) ∧
    ∀ store2 : BQStore, getExperimentMetadataV2 store2 experiments =
      getExperimentMetadataV2 store experiments := by
  have hmem : d ∈ experiments.filter (fun e => !(descriptorValid e)) :=
    List.mem_filter.mpr ⟨hd, by rw [hinv]; rfl⟩
  have hpos : 0 < (experiments.filter (fun e => !(descriptorValid e))).length :=
    List.length_pos.mpr (List.ne_nil_of_mem hmem)
  have hresp : ∀ s : BQStore, getExperimentMetadataV2 s experiments =
      .badRequest "Some experiments are missing required fields"
        (experiments.filter (fun e => !(descriptorValid e))) := by
    intro s
    unfold getExperimentMetadataV2
    rw [if_pos (by simpa using hpos)]
  exact ⟨hresp store, fun store2 => (hresp store2).trans (hresp store).symm⟩

/-- Witness for C4 at the batch `[D1, D2]` with `D1` missing `table_id`:
the whole batch is rejected listing exactly `D1`, for every store alike. -/
theorem invalid_descriptor_batch_rejection_witness :
    descD1 ∈ [descD1, descD2] ∧ descriptorValid descD1 = false ∧
    (getExperimentMetadataV2 storeW [descD1, descD2] =
      .badRequest "Some experiments are missing required fields"
        ([descD1, descD2].filter (fun e => !(descriptorValid e))) ∧
     ∀ store2 : BQStore, getExperimentMetadataV2 store2 [descD1, descD2] =
       getExperimentMetadataV2 storeW [descD1, descD2]) :=
  ⟨by decide, by decide,
   invalid_descriptor_batch_rejection storeW [descD1, descD2] descD1
     (by decide) (by decide)⟩

/-! ## C6: empty sensor lists and null time ranges (variant 1) -/

/-- Every column of the `UNPIVOT` list passes the sensor-key filter. -/
theorem sensorColumnsList_sensor_keys :
    ∀ c ∈ sensorColumnsList, isSensorKey c = true := by decide

/-- When every sensor value of every row is `NULL`, the sample step finds
no sensors. -/
theorem sampledSensors_empty (rows : List ExpRow)
    (hs : ∀ r ∈ rows, ∀ kv ∈ r.sensors, isSensorKey kv.1 = true → kv.2 = none) :
    sampledSensors rows = [] := by
  unfold sampledSensors
  cases hr : rows.take 1 with
  | nil => rfl
  | cons row rest =>
    have hrow : row ∈ rows := by
      have hmem : row ∈ rows.take 1 := by
        rw [hr]; exact List.mem_cons_self _ _
      exact List.mem_of_mem_take hmem
    have hfil : row.sensors.filter (fun kv => isSensorKey kv.1 && kv.2.isSome) = [] := by
      rw [List.filter_eq_nil_iff]
      intro kv hkv
      cases hk : isSensorKey kv.1 with
      | false => simp [hk]
      | true => simp [hk, hs row hrow kv hkv hk]
    simp [hfil]

/-- When every sensor value of every row is `NULL`, the `UNPIVOT` fallback
finds no sensors either. -/
theorem fallbackSensors_empty (rows : List ExpRow)
    (hs : ∀ r ∈ rows, ∀ kv ∈ r.sensors, isSensorKey kv.1 = true → kv.2 = none) :
    fallbackSensors rows = [] := by
  unfold fallbackSensors
  rw [List.filter_eq_nil_iff]
  intro c hc
  simp only [List.any_eq_true, not_exists, not_and, Bool.not_eq_true]
  intro r hr
  have hrmem : r ∈ rows := List.mem_of_mem_take hr
  unfold sensorValue
  cases hf : r.sensors.find? (fun kv => kv.1 == c) with
  | none => rfl
  | some kv =>
    have hkvmem : kv ∈ r.sensors := List.mem_of_find?_eq_some hf
    have hkeq : kv.1 = c := by simpa using List.find?_some hf
    have : kv.2 = none := hs r hrmem kv hkvmem (by
      rw [hkeq]; exact sensorColumnsList_sensor_keys c hc)
    simp [this]

/-- C6: for a descriptor whose scoped rows carry zero non-`NULL` sensor
values, variant 1 of the metadata resolver returns `available_sensors = []`
(an empty list, not an error); and when zero rows are in scope, both
`first_timestamp` and `last_timestamp` of `time_range` are `null`. -/
theorem zero_sensor_descriptor_metadata (store : BQStore)
    (d : ExperimentDescriptor) (tableRows : List ExpRow)
    (hlk : lookupTable store (d.project_id.getD "") (d.dataset_name.getD "")
      (d.table_id.getD "") = some tableRows)
    (hs : ∀ r ∈ scopedRows d tableRows, ∀ kv ∈ r.sensors,
      isSensorKey kv.1 = true → kv.2 = none) :
    resolveV1 store d = .ok
      { table_id := d.table_id.getD ""
        experiment_name := d.experiment_name.getD ""
        mac_address := if truthy d.mac_address then d.mac_address else none
        time_range :=
          { first_timestamp := minTimestamp (scopedRows d tableRows)
            last_timestamp := maxTimestamp (scopedRows d tableRows) }
        available_sensors := [] } ∧
    (scopedRows d tableRows = [] →
      minTimestamp (scopedRows d tableRows) = none ∧
      maxTimestamp (scopedRows d tableRows) = none) := by
  have hav : availableSensorsV1 (scopedRows d tableRows) = [] := by
    unfold availableSensorsV1
    rw [sampledSensors_empty _ hs]
    simp [fallbackSensors_empty _ hs]
  refine ⟨?_, ?_⟩
  · simp only [resolveV1, hlk, hav]
  · intro hempty
    rw [hempty]
    exact ⟨rfl, rfl⟩

/-- Witness for C6: `exp_zz` has no rows in `proj.ds.tbl`, so the metadata
comes back with an empty sensor list and a null–null time range. -/
theorem zero_sensor_descriptor_metadata_witness :
    lookupTable storeW (descZ.project_id.getD "") (descZ.dataset_name.getD "")
      (descZ.table_id.getD "") = some tblRows ∧
    (∀ r ∈ scopedRows descZ tblRows, ∀ kv ∈ r.sensors,
      isSensorKey kv.1 = true → kv.2 = none) ∧
    (resolveV1 storeW descZ = .ok
      { table_id := descZ.table_id.getD ""
        experiment_name := descZ.experiment_name.getD ""
        mac_address := if truthy descZ.mac_address then descZ.mac_address else none
        time_range :=
          { first_timestamp := minTimestamp (scopedRows descZ tblRows)
            last_timestamp := maxTimestamp (scopedRows descZ tblRows) }
        available_sensors := [] } ∧
     (scopedRows descZ tblRows = [] →
       minTimestamp (scopedRows descZ tblRows) = none ∧
       maxTimestamp (scopedRows descZ tblRows) = none)) :=
  ⟨by decide, by decide,
   zero_sensor_descriptor_metadata storeW descZ tblRows (by decide) (by decide)⟩

/-! ## C10: dotted `table_id` addressing in the data-fetch endpoint -/

/-- A split never produces the empty list of segments. -/
theorem splitChar_ne_nil (c : Char) (l : List Char) : splitChar c l ≠ [] := by
  cases l with
  | nil => exact fun h => List.noConfusion h
  | cons x xs =>
    simp only [splitChar]
    cases h : splitChar c xs with
    | nil => exact fun hh => List.noConfusion hh
    | cons seg rest =>
      by_cases hx : x = c <;> simp [hx]

/-- No segment of a split contains the separator. -/
theorem not_mem_of_mem_splitChar (c : Char) (l : List Char) :
    ∀ seg ∈ splitChar c l, c ∉ seg := by
  induction l with
  | nil =>
    intro seg hseg
    simp only [splitChar, List.mem_singleton] at hseg
    subst hseg
    exact List.not_mem_nil c
  | cons x xs ih =>
    intro seg hseg
    simp only [splitChar] at hseg
    cases h : splitChar c xs with
    | nil => exact absurd h (splitChar_ne_nil c xs)
    | cons s0 rest =>
      rw [h] at hseg
      dsimp only at hseg
      by_cases hx : x = c
      · rw [if_pos hx] at hseg
        rcases List.mem_cons.mp hseg with hseg | hseg
        · subst hseg; exact List.not_mem_nil c
        · exact ih seg (h ▸ hseg)
      · rw [if_neg hx] at hseg
        rcases List.mem_cons.mp hseg with hseg | hseg
        · subst hseg
          intro hmem
          rcases List.mem_cons.mp hmem with hc | hc
          · exact hx hc.symm
          · exact ih s0 (h ▸ List.mem_cons_self s0 rest) hc
        · exact ih seg (h ▸ List.mem_cons_of_mem s0 hseg)

/-- Element `parts[parts.length - 1]` of a nonempty list is one of its elements. -/
theorem getLastD_mem {α : Type} (l : List α) (h : l ≠ []) (d : α) :
    l.getLastD d ∈ l := by
  induction l generalizing d with
  | nil => exact absurd rfl h
  | cons x xs ih =>
    cases xs with
    | nil => simp [List.getLastD]
    | cons y ys =>
      exact List.mem_cons_of_mem x (ih (fun hh => List.noConfusion hh) x)

/-- The last segment of a dotted name contains no further dot. -/
theorem containsDot_last_segment (s : String) :
    containsDot ((splitDots s).getLastD "") = false := by
  have hne : (splitChar '.' s.data).map String.mk ≠ [] := by
    intro h
    exact splitChar_ne_nil '.' s.data (List.map_eq_nil_iff.mp h)
  have hmem : ((splitChar '.' s.data).map String.mk).getLastD "" ∈
      (splitChar '.' s.data).map String.mk := getLastD_mem _ hne ""
  rw [List.mem_map] at hmem
  obtain ⟨seg, hseg, heq⟩ := hmem
  have hnd : '.' ∉ seg := not_mem_of_mem_splitChar '.' s.data seg hseg
  show containsDot (((splitChar '.' s.data).map String.mk).getLastD "") = false
  rw [← heq]
  show (String.mk seg).data.contains '.' = false
  simpa using hnd

/-- C10: whenever the supplied `table_id` contains a dot, `getExperimentData`
addresses the store with only the substring after the last dot, so the
request with the fully-qualified dotted `table_id` and the request with its
bare last segment generate the same query (same SQL text, same bindings). -/
theorem dotted_tableid_last_segment (r : DataRequest)
    (h : containsDot r.table_id = true) :
    dataQuery r =
      dataQuery { r with table_id := (splitDots r.table_id).getLastD "" } := by
  have h1 : actualTableIdOf r.table_id = (splitDots r.table_id).getLastD "" := by
    unfold actualTableIdOf
    rw [if_pos h]
  have h2 : actualTableIdOf ((splitDots r.table_id).getLastD "") =
      (splitDots r.table_id).getLastD "" := by
    unfold actualTableIdOf
    rw [containsDot_last_segment]
    simp
  unfold dataQuery
  rw [h1, h2]

/-- Witness for C10 at the dotted request. -/
theorem dotted_tableid_last_segment_witness :
    containsDot reqDotted.table_id = true ∧
    dataQuery reqDotted =
      dataQuery { reqDotted with
        table_id := (splitDots reqDotted.table_id).getLastD "" } :=
  ⟨by decide, dotted_tableid_last_segment reqDotted (by decide)⟩

/-! ## C7: SQL text, bound values, and identifier provenance -/

/-- Counterexample for C7 as stated: were interpolated identifiers drawn
only from the permission store and never from request bodies, the SQL text
of `getExperimentData` would not change between two requests that differ
only in the request body's `project_id`; it does change, because
`getExperimentData` interpolates `project_id`, `dataset_name`, `table_id`
and the field list straight from the request body. -/
theorem identifier_provenance_counterexample :
    (dataQuery reqOtherProject).1 ≠ (dataQuery reqDotted).1 := by decide

/-- C7 amended: value parameters (the email of the grants query; the
experiment name and the time-range bounds of the data query) are never
interpolated into SQL text — the text is unchanged under any change of
them and they travel only in the named bindings — and the admin-expansion
query interpolates exactly the identifiers parsed from the stored grant
row; but the identifiers of the data query (project, dataset, table, field
list) are interpolated from the request body, not from the permission
store. -/
theorem sql_text_value_independence :
    (∀ e1 e2 : String, (permissionsQuery e1).1 = (permissionsQuery e2).1) ∧
    (∀ e : String, (permissionsQuery e).2 = [("email", e)]) ∧
    (∀ r1 r2 : DataRequest, r1.project_id = r2.project_id →
      r1.dataset_name = r2.dataset_name → r1.table_id = r2.table_id →
      r1.fields = r2.fields → (dataQuery r1).1 = (dataQuery r2).1) ∧
    (∀ r : DataRequest, (dataQuery r).2 =
      [("experiment_name", r.experiment_name), ("start", r.startTime),
       ("end", r.endTime)]) ∧
    (∀ g : Grant, adminQuery (parseTableId g.table_id).1
      (parseTableId g.table_id).2.1 (parseTableId g.table_id).2.2 =
      ("SELECT DISTINCT ExperimentData_Exp_name FROM `" ++
        (parseTableId g.table_id).1 ++ "." ++ (parseTableId g.table_id).2.1 ++
        "." ++ (parseTableId g.table_id).2.2 ++ "`", [])) := by
  refine ⟨fun e1 e2 => rfl, fun e => rfl, ?_, fun r => rfl, fun g => rfl⟩
  intro r1 r2 hp hd ht hf
  unfold dataQuery
  rw [hp, hd, ht, hf]

/-- Witness for C7 amended: the SQL text of the data query is literally the
same for two requests differing only in experiment name and time range. -/
theorem sql_text_value_independence_witness :
    reqOtherValues.project_id = reqDotted.project_id ∧
    reqOtherValues.dataset_name = reqDotted.dataset_name ∧
    reqOtherValues.table_id = reqDotted.table_id ∧
    reqOtherValues.fields = reqDotted.fields ∧
    (dataQuery reqOtherValues).1 = (dataQuery reqDotted).1 :=
  ⟨rfl, rfl, rfl, rfl,
   sql_text_value_independence.2.2.1 reqOtherValues reqDotted rfl rfl rfl rfl⟩

/-! ## C5: the Value Normalizer -/

/-- Rebuilding the fields of an object leaves its wrapper-shape unchanged:
the field count and the keys are preserved. -/
theorem isValueWrapper_unwrapFields (fields : List (String × JVal)) :
    isValueWrapper (unwrapFields fields) = isValueWrapper fields := by
  cases fields with
  | nil => rfl
  | cons kv rest =>
    cases rest with
    | nil => rfl
    | cons kv2 rest2 => rfl

/-- Splitting a true boolean conjunction. -/
theorem bool_and_split {a b : Bool} (h : (a && b) = true) :
    a = true ∧ b = true := by
  cases a <;> cases b <;> simp_all

/-- Primitive values contain no wrapper. -/
theorem atom_wrapperFree : (v : JVal) → isAtom v = true → wrapperFree v = true
  | .str _, _ => rfl
  | .num _, _ => rfl
  | .bool _, _ => rfl
  | .null, _ => rfl
  | .arr _, h => absurd h (by simp [isAtom])
  | .obj _, h => absurd h (by simp [isAtom])

mutual

/-- When every wrapper payload is primitive, one pass of the normalizer
removes every wrapper. -/
theorem unwrap_wrapperFree : (x : JVal) → wrapperPayloadsAtomic x = true →
    wrapperFree (unwrapValues x) = true
  | .str _, _ => rfl
  | .num _, _ => rfl
  | .bool _, _ => rfl
  | .null, _ => rfl
  | .arr xs, h => by
    have hl : wpaList xs = true := h
    show wfList (unwrapList xs) = true
    exact unwrapList_wrapperFree xs hl
  | .obj fields, h => by
    by_cases hw : isValueWrapper fields = true
    · have hpa : isAtom (wrapperPayload fields) = true := by
        have heq : wrapperPayloadsAtomic (.obj fields) =
            (if isValueWrapper fields then isAtom (wrapperPayload fields)
             else wpaFields fields) := rfl
        rw [heq, if_pos hw] at h
        exact h
      have hred : unwrapValues (.obj fields) = wrapperPayload fields := by
        show (if isValueWrapper fields then wrapperPayload fields
              else .obj (unwrapFields fields)) = wrapperPayload fields
        rw [if_pos hw]
      rw [hred]
      exact atom_wrapperFree _ hpa
    · have hpf : wpaFields fields = true := by
        have heq : wrapperPayloadsAtomic (.obj fields) =
            (if isValueWrapper fields then isAtom (wrapperPayload fields)
             else wpaFields fields) := rfl
        rw [heq, if_neg hw] at h
        exact h
      have hred : unwrapValues (.obj fields) = .obj (unwrapFields fields) := by
        show (if isValueWrapper fields then wrapperPayload fields
              else .obj (unwrapFields fields)) = .obj (unwrapFields fields)
        rw [if_neg hw]
      rw [hred]
      show (!(isValueWrapper (unwrapFields fields)) &&
        wfFields (unwrapFields fields)) = true
      rw [isValueWrapper_unwrapFields]
      have hwf : isValueWrapper fields = false :=
        Bool.eq_false_iff.mpr (fun hc => hw hc)
      rw [hwf]
      simp only [Bool.not_false, Bool.true_and]
      exact unwrapFields_wrapperFree fields hpf

theorem unwrapList_wrapperFree : (xs : List JVal) → wpaList xs = true →
    wfList (unwrapList xs) = true
  | [], _ => rfl
  | x :: xs, h => by
    have h' : (wrapperPayloadsAtomic x && wpaList xs) = true := h
    show (wrapperFree (unwrapValues x) && wfList (unwrapList xs)) = true
    rw [unwrap_wrapperFree x (bool_and_split h').1,
      unwrapList_wrapperFree xs (bool_and_split h').2]
    rfl

theorem unwrapFields_wrapperFree : (fs : List (String × JVal)) →
    wpaFields fs = true → wfFields (unwrapFields fs) = true
  | [], _ => rfl
  | kv :: rest, h => by
    have h' : (wrapperPayloadsAtomic kv.2 && wpaFields rest) = true := h
    show (wrapperFree (unwrapValues kv.2) && wfFields (unwrapFields rest)) = true
    rw [unwrap_wrapperFree kv.2 (bool_and_split h').1,
      unwrapFields_wrapperFree rest (bool_and_split h').2]
    rfl

end

mutual

/-- Wrapper-free values are fixpoints of the normalizer. -/
theorem wrapperFree_fixpoint : (x : JVal) → wrapperFree x = true →
    unwrapValues x = x
  | .str _, _ => rfl
  | .num _, _ => rfl
  | .bool _, _ => rfl
  | .null, _ => rfl
  | .arr xs, h => by
    show JVal.arr (unwrapList xs) = JVal.arr xs
    rw [wfList_fixpoint xs h]
  | .obj fields, h => by
    have h' : (!(isValueWrapper fields) && wfFields fields) = true := h
    have hw : isValueWrapper fields = false := by
      have := (bool_and_split h').1
      simpa using this
    have hf : wfFields fields = true := (bool_and_split h').2
    show (if isValueWrapper fields then wrapperPayload fields
          else .obj (unwrapFields fields)) = .obj fields
    rw [hw, if_neg (by simp)]
    rw [wfFields_fixpoint fields hf]

theorem wfList_fixpoint : (xs : List JVal) → wfList xs = true →
    unwrapList xs = xs
  | [], _ => rfl
  | x :: xs, h => by
    have h' : (wrapperFree x && wfList xs) = true := h
    show unwrapValues x :: unwrapList xs = x :: xs
    rw [wrapperFree_fixpoint x (bool_and_split h').1,
      wfList_fixpoint xs (bool_and_split h').2]

theorem wfFields_fixpoint : (fs : List (String × JVal)) → wfFields fs = true →
    unwrapFields fs = fs
  | [], _ => rfl
  | kv :: rest, h => by
    have h' : (wrapperFree kv.2 && wfFields rest) = true := h
    show (kv.1, unwrapValues kv.2) :: unwrapFields rest = kv :: rest
    rw [wrapperFree_fixpoint kv.2 (bool_and_split h').1,
      wfFields_fixpoint rest (bool_and_split h').2]

end

/-- Counterexample for C5 as stated: the normalizer is not idempotent on
every input.  On the doubly-wrapped `{value: {value: "x"}}` the first pass
returns the payload `{value: "x"}` without recursing into it, and a second
pass unwraps it further to `"x"`. -/
theorem normalize_idempotence_counterexample :
    unwrapValues (unwrapValues
      (JVal.obj [("value", JVal.obj [("value", JVal.str "x")])])) ≠
    unwrapValues (JVal.obj [("value", JVal.obj [("value", JVal.str "x")])]) :=
  fun h => JVal.noConfusion h

/-- C5 amended: the three concrete normalizations of the spec hold, and the
normalizer is idempotent on every value in which each `{value: v}` wrapper
has a primitive payload (the shape the warehouse client produces); full
idempotence fails only on wrappers nested directly inside wrappers. -/
theorem normalizer_spec :
    unwrapValues (.obj [("value", .str "2024-01-01")]) = .str "2024-01-01" ∧
    unwrapValues (.obj [("a", .obj [("value", .str "x")]), ("b", .num 3)]) =
      .obj [("a", .str "x"), ("b", .num 3)] ∧
    unwrapValues (.arr [.obj [("value", .str "x")], .num 5]) =
      .arr [.str "x", .num 5] ∧
    ∀ x : JVal, wrapperPayloadsAtomic x = true →
      unwrapValues (unwrapValues x) = unwrapValues x :=
  ⟨rfl, rfl, rfl, fun x h => wrapperFree_fixpoint _ (unwrap_wrapperFree x h)⟩

/-- Witness for C5 amended, at the spec's own wrapper example. -/
theorem normalizer_spec_witness :
    wrapperPayloadsAtomic (JVal.obj [("value", JVal.str "2024-01-01")]) = true ∧
    unwrapValues (unwrapValues (JVal.obj [("value", JVal.str "2024-01-01")])) =
      unwrapValues (JVal.obj [("value", JVal.str "2024-01-01")]) :=
  ⟨rfl, normalizer_spec.2.2.2 _ rfl⟩

end LoginPage
